import Mathlib

/-!
Verification of the reed document-collaboration backend: a shallow embedding
of the document-service repository and service layers and of the
user-service credential protocol, with theorems settling the behavioural
claims of the specification.

Machine integers (int32 page sizes) are modelled as `Int`; UUIDs as `Nat`
(128-bit values, with `maxDocumentID = 2^128 - 1` the all-0xff id);
timestamps as `Nat`.  Database tables are lists of rows; a transaction is
modelled by building a candidate state and committing it only on success
(`Except` results: an `error` outcome leaves the caller's state unchanged,
which is the deferred-rollback semantics of the source).
-/

/-! ## Keyset order: positions in the (time, id) total order, descending -/

/-- The keyset WHERE clause of the pagination queries:
`t < last_seen_time OR (t = last_seen_time AND id < last_seen_id)`,
i.e. strict lexicographic order on `(time, id)`. -/
def keyLt (a b : Nat × Nat) : Prop :=
  a.1 < b.1 ∨ (a.1 = b.1 ∧ a.2 < b.2)

instance (a b : Nat × Nat) : Decidable (keyLt a b) := by
  unfold keyLt; infer_instance

/-- Weak reverse order used by `ORDER BY t DESC, id DESC`: `a` may precede
`b` in the output when `¬ keyLt a b`. -/
def keyGe (a b : Nat × Nat) : Prop := ¬ keyLt a b

instance (a b : Nat × Nat) : Decidable (keyGe a b) := by
  unfold keyGe; infer_instance

theorem keyLt_irrefl (a : Nat × Nat) : ¬ keyLt a a := by
  unfold keyLt; omega

theorem keyLt_asymm {a b : Nat × Nat} (h : keyLt a b) : ¬ keyLt b a := by
  unfold keyLt at *; omega

theorem keyLt_trans {a b c : Nat × Nat} (h1 : keyLt a b) (h2 : keyLt b c) :
    keyLt a c := by
  unfold keyLt at *; omega

theorem keyGe_total (a b : Nat × Nat) : keyGe a b ∨ keyGe b a := by
  unfold keyGe keyLt; omega

theorem keyGe_trans {a b c : Nat × Nat} (h1 : keyGe a b) (h2 : keyGe b c) :
    keyGe a c := by
  unfold keyGe keyLt at *; omega

theorem keyLt_of_keyGe_of_ne {a b : Nat × Nat} (h : keyGe a b) (hne : a ≠ b) :
    keyLt b a := by
  unfold keyGe keyLt at *
  rcases a with ⟨a1, a2⟩; rcases b with ⟨b1, b2⟩
  have hc : a1 ≠ b1 ∨ a2 ≠ b2 := by
    by_contra hcon
    push_neg at hcon
    exact hne (by rw [hcon.1, hcon.2])
  simp only at h ⊢
  omega

/-! ## Descending sort by a key (the `ORDER BY key DESC` of the scans) -/

/-- Insert `x` into a list kept descending on `key`. -/
def insertDesc (key : α → Nat × Nat) (x : α) : List α → List α
  | [] => [x]
  | y :: ys =>
    if keyGe (key x) (key y) then x :: y :: ys else y :: insertDesc key x ys

/-- Sort a list descending on `key` (model of `ORDER BY key DESC`). -/
def sortDesc (key : α → Nat × Nat) : List α → List α
  | [] => []
  | x :: xs => insertDesc key x (sortDesc key xs)

theorem perm_insertDesc (key : α → Nat × Nat) (x : α) (l : List α) :
    List.Perm (insertDesc key x l) (x :: l) := by
  induction l with
  | nil => simp [insertDesc]
  | cons y ys ih =>
    by_cases h : keyGe (key x) (key y)
    · simp [insertDesc, h]
    · simp only [insertDesc, h, if_false]
      exact (ih.cons y).trans (List.Perm.swap x y ys)

theorem perm_sortDesc (key : α → Nat × Nat) (l : List α) :
    List.Perm (sortDesc key l) l := by
  induction l with
  | nil => simp [sortDesc]
  | cons x xs ih =>
    exact (perm_insertDesc key x (sortDesc key xs)).trans (ih.cons x)

theorem mem_sortDesc {key : α → Nat × Nat} {l : List α} {x : α} :
    x ∈ sortDesc key l ↔ x ∈ l :=
  (perm_sortDesc key l).mem_iff

theorem pairwise_insertDesc {key : α → Nat × Nat} {x : α} {l : List α}
    (h : l.Pairwise (fun a b => keyGe (key a) (key b))) :
    (insertDesc key x l).Pairwise (fun a b => keyGe (key a) (key b)) := by
  induction l with
  | nil => simp [insertDesc]
  | cons y ys ih =>
    rcases List.pairwise_cons.mp h with ⟨hy, hys⟩
    by_cases hxy : keyGe (key x) (key y)
    · rw [insertDesc, if_pos hxy]
      refine List.pairwise_cons.mpr ⟨?_, h⟩
      intro b hb
      rcases List.mem_cons.mp hb with rfl | hb
      · exact hxy
      · exact keyGe_trans hxy (hy b hb)
    · rw [insertDesc, if_neg hxy]
      refine List.pairwise_cons.mpr ⟨?_, ih hys⟩
      intro b hb
      have hyx : keyGe (key y) (key x) := (keyGe_total (key x) (key y)).resolve_left hxy
      rcases List.mem_cons.mp ((perm_insertDesc key x ys).mem_iff.mp hb) with h1 | h2
      · rw [h1]; exact hyx
      · exact hy b h2

theorem pairwise_sortDesc (key : α → Nat × Nat) (l : List α) :
    (sortDesc key l).Pairwise (fun a b => keyGe (key a) (key b)) := by
  induction l with
  | nil => simp [sortDesc]
  | cons x xs ih => exact pairwise_insertDesc ih

/-- In a strictly descending list, an element lies in the first `n`
positions iff fewer than `n` elements are strictly ahead of it. -/
theorem mem_take_of_pairwise_strict {key : α → Nat × Nat} {l : List α}
    (h : l.Pairwise (fun a b => keyLt (key b) (key a))) (x : α) (n : Nat) :
    x ∈ l.take n ↔
      x ∈ l ∧ l.countP (fun y => decide (keyLt (key x) (key y))) < n := by
  induction l generalizing n with
  | nil => simp
  | cons a t ih =>
    rcases List.pairwise_cons.mp h with ⟨ha, ht⟩
    cases n with
    | zero => simp
    | succ m =>
      rw [List.take_succ_cons]
      by_cases hxa : x = a
      · subst hxa
        have hcount : t.countP (fun y => decide (keyLt (key x) (key y))) = 0 := by
          rw [List.countP_eq_zero]
          intro y hy
          simpa using keyLt_asymm (ha y hy)
        simp [List.countP_cons, hcount, keyLt_irrefl]
      · by_cases hxt : x ∈ t
        · have hlt : keyLt (key x) (key a) := ha x hxt
          have hcnt : (a :: t).countP (fun y => decide (keyLt (key x) (key y))) =
              t.countP (fun y => decide (keyLt (key x) (key y))) + 1 := by
            rw [List.countP_cons]
            simp [hlt]
          rw [List.mem_cons, List.mem_cons]
          simp only [hxa, false_or]
          rw [ih ht, hcnt]
          simp only [hxt, true_and]
          omega
        · simp only [List.mem_cons, hxa, hxt, false_or, false_and, iff_false]
          intro hmem
          exact hxt (List.mem_of_mem_take hmem)

/-- A page scan: filter the rows by the qualifying predicate, order them
descending on the sort key, return the first `n`.  This is the shape of
every keyset query in the repository (`WHERE ... ORDER BY key DESC LIMIT n`). -/
def pageScan (key : α → Nat × Nat) (q : α → Bool) (n : Nat) (rows : List α) :
    List α :=
  (sortDesc key (rows.filter q)).take n

/-- Characterisation of a page scan when the qualifying rows carry pairwise
distinct sort keys (guaranteed in the store by primary-key uniqueness):
a row is in the page iff it qualifies and fewer than `n` qualifying rows
are strictly ahead of it in the descending key order. -/
theorem mem_pageScan {key : α → Nat × Nat} {q : α → Bool} {rows : List α}
    (hnd : ((rows.filter q).map key).Nodup) (x : α) (n : Nat) :
    x ∈ pageScan key q n rows ↔
      x ∈ rows ∧ q x = true ∧
        rows.countP (fun y => q y && decide (keyLt (key x) (key y))) < n := by
  have hpairne : (rows.filter q).Pairwise (fun a b => key a ≠ key b) :=
    List.pairwise_map.mp hnd
  have hsorted := pairwise_sortDesc key (rows.filter q)
  have hperm := perm_sortDesc key (rows.filter q)
  have hstrict : (sortDesc key (rows.filter q)).Pairwise
      (fun a b => keyLt (key b) (key a)) := by
    have hpairne2 : (sortDesc key (rows.filter q)).Pairwise
        (fun a b => key a ≠ key b) :=
      (hperm.pairwise_iff (fun h e => h e.symm)).mpr hpairne
    exact (hsorted.and hpairne2).imp
      (fun h => keyLt_of_keyGe_of_ne h.1 h.2)
  rw [pageScan, mem_take_of_pairwise_strict hstrict, hperm.mem_iff,
    hperm.countP_eq]
  constructor
  · rintro ⟨hmem, hcount⟩
    have hq := List.of_mem_filter hmem
    refine ⟨List.mem_of_mem_filter hmem, hq, ?_⟩
    calc rows.countP (fun y => q y && decide (keyLt (key x) (key y)))
        = (rows.filter q).countP (fun y => decide (keyLt (key x) (key y))) := by
          rw [List.countP_filter]
          congr 1
          funext y
          rw [Bool.and_comm]
      _ < n := hcount
  · rintro ⟨hmem, hq, hcount⟩
    refine ⟨List.mem_filter.mpr ⟨hmem, hq⟩, ?_⟩
    calc (rows.filter q).countP (fun y => decide (keyLt (key x) (key y)))
        = rows.countP (fun y => q y && decide (keyLt (key x) (key y))) := by
          rw [List.countP_filter]
          congr 1
          funext y
          rw [Bool.and_comm]
      _ < n := hcount

/-! ## Data model (document service) -/

abbrev UUID := Nat
abbrev Time := Nat

inductive PermissionLevel
  | viewer
  | editor
  | owner
deriving DecidableEq

inductive RecipientType
  | user
  | guest
deriving DecidableEq

inductive SortField
  | createdAt
  | lastModifiedAt
deriving DecidableEq

/-- The sqlc-level `permission_level` enum (strings in the store). -/
inductive RepoPermissionLevel
  | viewer
  | editor
  | owner
deriving DecidableEq

/-- The sqlc-level `recipient_type` enum. -/
inductive RepoRecipientType
  | user
  | guest
deriving DecidableEq

inductive DomainError
  | notFound
  | invalidInput
  | uniqueConflict
  | passwordMismatch
  | repoImpl
deriving DecidableEq

/-- Errors surfaced by a repository: either a domain error, the sentinel
`ErrNilPointer` (a plain error, not a domain error), or some other
non-domain error. -/
inductive RepoError
  | domain (e : DomainError)
  | nilPointer
  | otherErr
deriving DecidableEq

structure DocRow where
  id : UUID
  name : Option String
  docDescription : Option String
  createdAt : Time
  lastModifiedAt : Time
deriving DecidableEq

structure PermRow where
  recipientId : UUID
  recipientType : RepoRecipientType
  documentId : UUID
  permissionLevel : RepoPermissionLevel
  createdBy : UUID
  createdAt : Time
  lastModifiedAt : Time
deriving DecidableEq

structure GuestRow where
  id : UUID
  documentId : UUID
  createdBy : UUID
  createdAt : Time
  lastModifiedAt : Time
deriving DecidableEq

/-- The document-service relational schema: `documents`, `permissions`,
`guests`. -/
structure DocDB where
  documents : List DocRow
  permissions : List PermRow
  guests : List GuestRow
deriving DecidableEq

structure Document where
  id : UUID
  name : Option String
  docDescription : Option String
  createdAt : Time
  lastModifiedAt : Time
deriving DecidableEq

structure Permission where
  recipientId : UUID
  recipientType : RecipientType
  documentId : UUID
  permissionLevel : PermissionLevel
  createdBy : UUID
  createdAt : Time
  lastModifiedAt : Time
deriving DecidableEq

structure Cursor where
  sortField : SortField
  lastSeenTime : Time
  lastSeenId : UUID
deriving DecidableEq

structure DocumentPermission where
  document : Document
  permission : PermissionLevel
deriving DecidableEq

/-! ## Conversions between service and repository representations -/

def serviceToRepoPermissionLevel : PermissionLevel → RepoPermissionLevel
  | .viewer => .viewer
  | .editor => .editor
  | .owner => .owner

def repoToServicePermissionLevel : RepoPermissionLevel → PermissionLevel
  | .viewer => .viewer
  | .editor => .editor
  | .owner => .owner

def repoToServiceRecipientType : RepoRecipientType → RecipientType
  | .user => .user
  | .guest => .guest

def repositoryToServiceDocument (d : DocRow) : Document :=
  { id := d.id
    name := d.name
    docDescription := d.docDescription
    createdAt := d.createdAt
    lastModifiedAt := d.lastModifiedAt }

/-- Conversion of a stored permission row to the service shape.  The source
populates both `CreatedAt` and `LastModifiedAt` of the service value from
the row's `created_at`. -/
def repoToServicePermission (p : PermRow) : Permission :=
  { recipientId := p.recipientId
    recipientType := repoToServiceRecipientType p.recipientType
    documentId := p.documentId
    permissionLevel := repoToServicePermissionLevel p.permissionLevel
    createdBy := p.createdBy
    createdAt := p.createdAt
    lastModifiedAt := p.createdAt }

/-! ## SQL-level operations on the document schema -/

def sqlGetDocument (db : DocDB) (did : UUID) : Option DocRow :=
  db.documents.find? (fun d => decide (d.id = did))

def coalesce (param old : Option String) : Option String :=
  match param with
  | some s => some s
  | none => old

/-- `UPDATE documents SET name = COALESCE($2, name), description =
COALESCE($3, description) WHERE id = $1`, returning the affected row count.
The statement does not assign `last_modified_at`. -/
def sqlUpdateDocument (db : DocDB) (did : UUID) (nameArg descArg : Option String) :
    DocDB × Nat :=
  ({ db with documents := db.documents.map (fun d =>
      if d.id = did then
        { d with name := coalesce nameArg d.name
                 docDescription := coalesce descArg d.docDescription }
      else d) },
   (db.documents.filter (fun d => decide (d.id = did))).length)

def sqlDeleteDocument (db : DocDB) (did : UUID) : DocDB × Nat :=
  ({ db with documents := db.documents.filter (fun d => !decide (d.id = did)) },
   (db.documents.filter (fun d => decide (d.id = did))).length)

def sqlDeletePermissionByDocument (db : DocDB) (did : UUID) : DocDB × Nat :=
  ({ db with permissions := db.permissions.filter (fun p => !decide (p.documentId = did)) },
   (db.permissions.filter (fun p => decide (p.documentId = did))).length)

def sqlDeleteGuestsByDocument (db : DocDB) (did : UUID) : DocDB × Nat :=
  ({ db with guests := db.guests.filter (fun g => !decide (g.documentId = did)) },
   (db.guests.filter (fun g => decide (g.documentId = did))).length)

/-- `INSERT INTO permissions VALUES ($1,'user',$2,$3,$4) ON CONFLICT
(recipient_id, document_id) DO UPDATE SET last_modified_at = NOW(),
permission_level = $3`. -/
def sqlUpsertPermissionUser (db : DocDB) (rid did : UUID)
    (lvl : RepoPermissionLevel) (creator : UUID) (now : Time) : DocDB :=
  if db.permissions.any (fun p => decide (p.recipientId = rid ∧ p.documentId = did)) then
    { db with permissions := db.permissions.map (fun p =>
        if p.recipientId = rid ∧ p.documentId = did then
          { p with permissionLevel := lvl, lastModifiedAt := now }
        else p) }
  else
    { db with permissions := db.permissions ++
        [{ recipientId := rid
           recipientType := .user
           documentId := did
           permissionLevel := lvl
           createdBy := creator
           createdAt := now
           lastModifiedAt := now }] }

/-! ## Keyset pagination queries -/

/-- The `documents JOIN permissions ON documents.id = permissions.document_id`
relation. -/
def joinDocPerm (db : DocDB) : List (DocRow × PermRow) :=
  db.documents.flatMap (fun d =>
    (db.permissions.filter (fun p => decide (p.documentId = d.id))).map (fun p => (d, p)))

/-- `ListDocumentsByCreatedAt`: keyset page over the join, `WHERE
(created_at, id) < (last, lastId)` lexicographically descending, filtered by
the permission list and the recipient, `ORDER BY created_at DESC, id DESC
LIMIT lim`. -/
def sqlListDocumentsByCreatedAt (db : DocDB) (rid : UUID) (lastTime : Time)
    (lastId : UUID) (lim : Nat) (permissionsList : List RepoPermissionLevel) :
    List (DocRow × PermRow) :=
  pageScan (fun r => (r.1.createdAt, r.1.id))
    (fun r => decide (keyLt (r.1.createdAt, r.1.id) (lastTime, lastId)) &&
      decide (r.2.permissionLevel ∈ permissionsList) &&
      decide (r.2.recipientId = rid))
    lim (joinDocPerm db)

/-- `ListDocumentsByLastModifiedAt`: same page, keyed on
`(last_modified_at, id)`. -/
def sqlListDocumentsByLastModifiedAt (db : DocDB) (rid : UUID) (lastTime : Time)
    (lastId : UUID) (lim : Nat) (permissionsList : List RepoPermissionLevel) :
    List (DocRow × PermRow) :=
  pageScan (fun r => (r.1.lastModifiedAt, r.1.id))
    (fun r => decide (keyLt (r.1.lastModifiedAt, r.1.id) (lastTime, lastId)) &&
      decide (r.2.permissionLevel ∈ permissionsList) &&
      decide (r.2.recipientId = rid))
    lim (joinDocPerm db)

/-- Modelled from the spec: the generated sqlc query
`ListPermissionOnDocumentCreatedAt` is not among the sources (only its Go
caller `readPermissions` is).  Per the spec it pages the permissions on a
document ordered by `(created_at DESC, recipient_id DESC)` under the keyset
condition on `(created_at, recipient_id)`, filtered by the permission
list. -/
def sqlListPermissionOnDocumentCreatedAt (db : DocDB) (did : UUID)
    (lastTime : Time) (lastRecipientId : UUID) (lim : Nat)
    (permissionsList : List RepoPermissionLevel) : List PermRow :=
  pageScan (fun p => (p.createdAt, p.recipientId))
    (fun p => decide (p.documentId = did) &&
      decide (keyLt (p.createdAt, p.recipientId) (lastTime, lastRecipientId)) &&
      decide (p.permissionLevel ∈ permissionsList))
    lim db.permissions

/-- Modelled from the spec: the generated sqlc query
`ListPermissionOnDocumentLastModifiedAt`, keyed on
`(last_modified_at, recipient_id)`. -/
def sqlListPermissionOnDocumentLastModifiedAt (db : DocDB) (did : UUID)
    (lastTime : Time) (lastRecipientId : UUID) (lim : Nat)
    (permissionsList : List RepoPermissionLevel) : List PermRow :=
  pageScan (fun p => (p.lastModifiedAt, p.recipientId))
    (fun p => decide (p.documentId = did) &&
      decide (keyLt (p.lastModifiedAt, p.recipientId) (lastTime, lastRecipientId)) &&
      decide (p.permissionLevel ∈ permissionsList))
    lim db.permissions

/-! ## Document repository -/

def readDocuments (db : DocDB) (principalId : UUID)
    (repoPermissionList : List RepoPermissionLevel) (cursor : Cursor)
    (pageSize : Nat) : List (DocRow × PermRow) :=
  match cursor.sortField with
  | .createdAt =>
    sqlListDocumentsByCreatedAt db principalId cursor.lastSeenTime
      cursor.lastSeenId pageSize repoPermissionList
  | .lastModifiedAt =>
    sqlListDocumentsByLastModifiedAt db principalId cursor.lastSeenTime
      cursor.lastSeenId pageSize repoPermissionList

def parseDocumentPermission (r : DocRow × PermRow) : DocumentPermission :=
  { document := repositoryToServiceDocument r.1
    permission := repoToServicePermissionLevel r.2.permissionLevel }

/-- The "populate the new cursor" block of `ListDocumentsByPrincipal`: the
response cursor is built from the last row of the returned page, or echoes
the request cursor when the page is empty. -/
def respCursorFromDocs (c : Cursor) (dps : List DocumentPermission) : Cursor :=
  match dps.getLast? with
  | some lastDp =>
    { sortField := c.sortField
      lastSeenTime :=
        match c.sortField with
        | .createdAt => lastDp.document.createdAt
        | .lastModifiedAt => lastDp.document.lastModifiedAt
      lastSeenId := lastDp.document.id }
  | none =>
    { sortField := c.sortField
      lastSeenTime := c.lastSeenTime
      lastSeenId := c.lastSeenId }

/-- The response-cursor block of `ListPermissionsOnDocument`, built from the
last converted permission of the page (or echoing the request cursor). -/
def respCursorFromPerms (c : Cursor) (ps : List Permission) : Cursor :=
  match ps.getLast? with
  | some lastP =>
    { sortField := c.sortField
      lastSeenTime :=
        match c.sortField with
        | .createdAt => lastP.createdAt
        | .lastModifiedAt => lastP.lastModifiedAt
      lastSeenId := lastP.recipientId }
  | none =>
    { sortField := c.sortField
      lastSeenTime := c.lastSeenTime
      lastSeenId := c.lastSeenId }

/-- Repository `ListDocumentsByPrincipal`: nil-cursor and empty-filter
guards, keyset read, then the response cursor built from the last returned
row (or echoing the request cursor on an empty page). -/
def ListDocumentsByPrincipal (db : DocDB) (principalId : UUID)
    (permissions : List PermissionLevel) (cursor : Option Cursor)
    (pageSize : Nat) : Except RepoError (List DocumentPermission × Cursor) :=
  match cursor with
  | none => .error .nilPointer
  | some c =>
    if permissions.length < 1 then .error (.domain .invalidInput)
    else
      .ok ((readDocuments db principalId
          (permissions.map serviceToRepoPermissionLevel) c pageSize).map
            parseDocumentPermission,
        respCursorFromDocs c ((readDocuments db principalId
          (permissions.map serviceToRepoPermissionLevel) c pageSize).map
            parseDocumentPermission))

def readPermissions (db : DocDB) (documentId : UUID)
    (permissionFilter : List RepoPermissionLevel) (cursor : Cursor)
    (maxPermissions : Nat) : List PermRow :=
  match cursor.sortField with
  | .createdAt =>
    sqlListPermissionOnDocumentCreatedAt db documentId cursor.lastSeenTime
      cursor.lastSeenId maxPermissions permissionFilter
  | .lastModifiedAt =>
    sqlListPermissionOnDocumentLastModifiedAt db documentId cursor.lastSeenTime
      cursor.lastSeenId maxPermissions permissionFilter

/-- Repository `ListPermissionsOnDocument`: empty-filter guard, nil-cursor
guard, repeatable-read existence gate on the document, keyset read,
conversion, response cursor from the last converted row. -/
def ListPermissionsOnDocument (db : DocDB) (documentId : UUID)
    (permissionFilter : List PermissionLevel) (cursor : Option Cursor)
    (pageSize : Nat) : Except RepoError (List Permission × Cursor) :=
  if permissionFilter.length < 1 then .error (.domain .invalidInput)
  else
    match cursor with
    | none => .error .nilPointer
    | some c =>
      match sqlGetDocument db documentId with
      | none => .error (.domain .notFound)
      | some _ =>
        .ok ((readPermissions db documentId
            (permissionFilter.map serviceToRepoPermissionLevel) c pageSize).map
              repoToServicePermission,
          respCursorFromPerms c ((readPermissions db documentId
            (permissionFilter.map serviceToRepoPermissionLevel) c pageSize).map
              repoToServicePermission))

def GetPermissionOfPrincipalOnDocument (db : DocDB)
    (documentId principalId : UUID) : Except RepoError Permission :=
  match db.permissions.find?
      (fun p => decide (p.documentId = documentId ∧ p.recipientId = principalId)) with
  | none => .error (.domain .notFound)
  | some row => .ok (repoToServicePermission row)

/-- `deleteDocumentHelper`: inside one transaction, delete the permissions
on the document, then its guests, then the document row; `NotFound` when
the document-row deletion affects zero rows. -/
def deleteDocumentHelper (db : DocDB) (documentId : UUID) :
    Except RepoError DocDB :=
  let db1 := (sqlDeletePermissionByDocument db documentId).1
  let db2 := (sqlDeleteGuestsByDocument db1 documentId).1
  let res := sqlDeleteDocument db2 documentId
  if res.2 < 1 then .error (.domain .notFound) else .ok res.1

/-- Repository `DeleteDocument`: run the helper in a transaction; commit on
success.  An `error` result means the deferred rollback ran and the store
is unchanged. -/
def DeleteDocument (db : DocDB) (documentId : UUID) : Except RepoError DocDB :=
  deleteDocumentHelper db documentId

/-- The state of the store after a transactional call: the new state on
commit, the original state after a rollback. -/
def commitDocDB (db : DocDB) : Except RepoError DocDB → DocDB
  | .ok db2 => db2
  | .error _ => db

/-- Repository `UpdateDocument`: all-nil guard, coalescing UPDATE,
`NotFound` on zero affected rows. -/
def UpdateDocument (db : DocDB) (documentId : UUID)
    (documentName documentDescription : Option String) :
    Except RepoError DocDB :=
  if documentName = none ∧ documentDescription = none then
    .error (.domain .invalidInput)
  else
    let res := sqlUpdateDocument db documentId documentName documentDescription
    if res.2 < 1 then .error (.domain .notFound) else .ok res.1

/-- Repository `UpsertPermissionUser`: map the level, repeatable-read
existence gate on the document, then the SQL upsert. -/
def UpsertPermissionUser (db : DocDB) (userId documentId : UUID)
    (permissionLevel : PermissionLevel) (now : Time) : Except RepoError DocDB :=
  let repoPermission := serviceToRepoPermissionLevel permissionLevel
  match sqlGetDocument db documentId with
  | none => .error (.domain .notFound)
  | some _ => .ok (sqlUpsertPermissionUser db userId documentId repoPermission userId now)

/-! ## User repository -/

structure UserRow where
  id : UUID
  userName : String
  email : String
  maxDocuments : Int
  hashedPassword : String
  isActive : Bool
  createdAt : Time
  lastModified : Time
deriving DecidableEq

abbrev UserDB := List UserRow

/-- Modelled from the spec: the generated sqlc query `GetUserForUpdate`
(a `SELECT ... FOR UPDATE` by id) is not among the sources; it returns the
user row with the given id. -/
def sqlGetUserForUpdate (db : UserDB) (userId : UUID) : Option UserRow :=
  db.find? (fun u => decide (u.id = userId))

def sqlChangeUserPassword (db : UserDB) (hashed : String) (userId : UUID)
    (now : Time) : UserDB :=
  db.map (fun u =>
    if u.id = userId then { u with hashedPassword := hashed, lastModified := now }
    else u)

/-- Modelled from the spec: the generated sqlc query `GetHashedPassword`
looks a user up by `user_name`, returning its id and stored hash. -/
def sqlGetHashedPassword (db : UserDB) (userName : String) : Option UserRow :=
  db.find? (fun u => decide (u.userName = userName))

def uuidNil : UUID := 0

/-- `ModifyPassword`: transactionally select the row for update, compare the
old password against the stored hash, replace the hash on match.  `bcrypt`
is abstracted: `verify h p` models `CompareHashAndPassword(h, p) == nil` and
`mkHash p` models `GenerateFromPassword(p, DefaultCost)`. -/
def ModifyPassword (db : UserDB) (userId : UUID)
    (oldPassword newPassword : String) (verify : String → String → Bool)
    (mkHash : String → String) (now : Time) : Except RepoError UserDB :=
  match sqlGetUserForUpdate db userId with
  | none => .error (.domain .notFound)
  | some user =>
    if verify user.hashedPassword oldPassword then
      .ok (sqlChangeUserPassword db (mkHash newPassword) user.id now)
    else
      .error (.domain .passwordMismatch)

/-- The user store after a transactional call: committed on success,
rolled back (unchanged) on error. -/
def commitUserDB (db : UserDB) : Except RepoError UserDB → UserDB
  | .ok db2 => db2
  | .error _ => db

/-- `ValidatePassword` returns the Go triple
`(user_id, is_valid, error)`. -/
def ValidatePassword (db : UserDB) (userName password : String)
    (verify : String → String → Bool) : UUID × Bool × Option DomainError :=
  match sqlGetHashedPassword db userName with
  | none => (uuidNil, false, some .notFound)
  | some row =>
    if verify row.hashedPassword password then (row.id, true, none)
    else (uuidNil, false, none)

/-! ## Service layer -/

def maxDocumentID : UUID := 2 ^ 128 - 1

def newBeginningCursor (now : Time) (sf : SortField) : Cursor :=
  { sortField := sf, lastSeenTime := now, lastSeenId := maxDocumentID }

def defaultPageSize : Int := 10

def maxPageSize : Int := 100

def allPermissions : List PermissionLevel := [.viewer, .editor, .owner]

/-- The service layer's error shaping: domain errors pass through, anything
else (including the nil-pointer sentinel) is wrapped into `RepoImpl`. -/
def wrapExcept : Except RepoError α → Except DomainError α
  | .ok v => .ok v
  | .error (.domain e) => .error e
  | .error _ => .error .repoImpl

def svcNormalizePermissions (permissions : List PermissionLevel) :
    List PermissionLevel :=
  if permissions.length < 1 then allPermissions else permissions

def svcNormalizeCursor (now : Time) (cursor : Option Cursor) : Cursor :=
  match cursor with
  | none => newBeginningCursor now .createdAt
  | some c => c

def svcNormalizePageSize (pageSize : Int) : Int :=
  if pageSize < 1 ∨ pageSize > maxPageSize then defaultPageSize else pageSize

/-- Service `ListDocumentsByPrincipal` over an abstract repository:
normalize the filter, the cursor and the page size, call the repository
with the normalized arguments, shape the error. -/
def svcListDocumentsByPrincipal
    (repo : UUID → List PermissionLevel → Cursor → Int → Except RepoError α)
    (now : Time) (principalId : UUID) (permissions : List PermissionLevel)
    (cursor : Option Cursor) (pageSize : Int) : Except DomainError α :=
  wrapExcept (repo principalId (svcNormalizePermissions permissions)
    (svcNormalizeCursor now cursor) (svcNormalizePageSize pageSize))

/-- Service `ListPermissionsOnDocument` over an abstract repository: the
same normalization as the documents listing. -/
def svcListPermissionsOnDocument
    (repo : UUID → List PermissionLevel → Cursor → Int → Except RepoError α)
    (now : Time) (documentId : UUID) (permissions : List PermissionLevel)
    (cursor : Option Cursor) (pageSize : Int) : Except DomainError α :=
  wrapExcept (repo documentId (svcNormalizePermissions permissions)
    (svcNormalizeCursor now cursor) (svcNormalizePageSize pageSize))

/-- Service `UpsertPermissionUser`: reject `owner` with `InvalidInput`
before any repository call. -/
def svcUpsertPermissionUser
    (repo : UUID → UUID → PermissionLevel → Except RepoError Unit)
    (userId documentId : UUID) (permissionLevel : PermissionLevel) :
    Except DomainError Unit :=
  if permissionLevel = .owner then .error .invalidInput
  else wrapExcept (repo userId documentId permissionLevel)

/-- Service `UpdatePermissionGuest`: reject `owner` with `InvalidInput`
before any repository call. -/
def svcUpdatePermissionGuest
    (repo : UUID → PermissionLevel → Except RepoError Unit)
    (guestId : UUID) (permissionLevel : PermissionLevel) :
    Except DomainError Unit :=
  if permissionLevel = .owner then .error .invalidInput
  else wrapExcept (repo guestId permissionLevel)

/-- Service `CreateGuest`: reject `owner` with `InvalidInput` before any
repository call. -/
def svcCreateGuest
    (repo : UUID → UUID → PermissionLevel → Except RepoError UUID)
    (creatorId documentId : UUID) (permissionLevel : PermissionLevel) :
    Except DomainError UUID :=
  if permissionLevel = .owner then .error .invalidInput
  else wrapExcept (repo creatorId documentId permissionLevel)

/-! ## Sort-field projections and concrete fixtures -/

def docTime : SortField → DocRow → Nat
  | .createdAt => DocRow.createdAt
  | .lastModifiedAt => DocRow.lastModifiedAt

def permTime : SortField → PermRow → Nat
  | .createdAt => PermRow.createdAt
  | .lastModifiedAt => PermRow.lastModifiedAt

def exDocA : DocRow :=
  { id := 1, name := some "a", docDescription := none, createdAt := 5, lastModifiedAt := 5 }

def exDocB : DocRow :=
  { id := 2, name := none, docDescription := none, createdAt := 7, lastModifiedAt := 9 }

def exPermA : PermRow :=
  { recipientId := 4, recipientType := .user, documentId := 1,
    permissionLevel := .editor, createdBy := 4, createdAt := 6, lastModifiedAt := 6 }

def exPermB : PermRow :=
  { recipientId := 4, recipientType := .user, documentId := 2,
    permissionLevel := .viewer, createdBy := 4, createdAt := 8, lastModifiedAt := 8 }

def exGuest : GuestRow :=
  { id := 9, documentId := 1, createdBy := 4, createdAt := 2, lastModifiedAt := 2 }

def exDB : DocDB :=
  { documents := [exDocA, exDocB], permissions := [exPermA, exPermB], guests := [exGuest] }

def exUser : UserRow :=
  { id := 1, userName := "alice", email := "alice@example.com", maxDocuments := 100,
    hashedPassword := "hash-old", isActive := true, createdAt := 0, lastModified := 0 }

def exUserDB : UserDB := [exUser]

/-- A toy bcrypt: the hash of `p` is `"hash-" ++ p` and verification checks
that shape. -/
def exMkHash : String → String := fun p => "hash-" ++ p

def exVerify : String → String → Bool := fun h p => h == "hash-" ++ p

instance {ε α : Type} [DecidableEq ε] [DecidableEq α] : DecidableEq (Except ε α) :=
  fun a b =>
    match a, b with
    | .ok x, .ok y =>
      if h : x = y then .isTrue (by rw [h])
      else .isFalse (by intro hc; cases hc; exact h rfl)
    | .error x, .error y =>
      if h : x = y then .isTrue (by rw [h])
      else .isFalse (by intro hc; cases hc; exact h rfl)
    | .ok _, .error _ => .isFalse (by intro hc; cases hc)
    | .error _, .ok _ => .isFalse (by intro hc; cases hc)

/-! ## Helper lemmas -/

theorem mem_of_mem_pageScan {key : α → Nat × Nat} {q : α → Bool} {n : Nat}
    {rows : List α} {x : α} (h : x ∈ pageScan key q n rows) : x ∈ rows :=
  List.mem_of_mem_filter (mem_sortDesc.mp (List.mem_of_mem_take h))

theorem mem_permissions_of_mem_readPermissions {db : DocDB} {did : UUID}
    {filt : List RepoPermissionLevel} {c : Cursor} {n : Nat} {p : PermRow}
    (h : p ∈ readPermissions db did filt c n) : p ∈ db.permissions := by
  unfold readPermissions at h
  rcases c with ⟨sf, t, i⟩
  cases sf
  · unfold sqlListPermissionOnDocumentCreatedAt at h
    exact mem_of_mem_pageScan h
  · unfold sqlListPermissionOnDocumentLastModifiedAt at h
    exact mem_of_mem_pageScan h

theorem sqlUpsertPermissionUser_mem (db : DocDB) (rid did : UUID)
    (lvl : RepoPermissionLevel) (creator : UUID) (now : Time) :
    ∃ p ∈ (sqlUpsertPermissionUser db rid did lvl creator now).permissions,
      p.recipientId = rid ∧ p.documentId = did ∧ p.permissionLevel = lvl := by
  unfold sqlUpsertPermissionUser
  split
  · rename_i hany
    rcases List.any_eq_true.mp hany with ⟨p0, hp0, hcond⟩
    have hc := of_decide_eq_true hcond
    refine ⟨{ p0 with permissionLevel := lvl, lastModifiedAt := now }, ?_, hc.1, hc.2, rfl⟩
    refine List.mem_map.mpr ⟨p0, hp0, ?_⟩
    rw [if_pos hc]
  · refine ⟨⟨rid, .user, did, lvl, creator, now, now⟩, ?_, rfl, rfl, rfl⟩
    simp

/-! ## Claim theorems -/

/-- C4: the service layer's `UpsertPermissionUser`, `UpdatePermissionGuest`
and `CreateGuest` answer an `owner` level with `InvalidInput` without the
repository being invoked (the result is the same for every repository),
while every non-owner level passes the check and the repository is called
with the unchanged arguments. -/
theorem service_rejects_owner_level
    (repoUpsert : UUID → UUID → PermissionLevel → Except RepoError Unit)
    (repoGuestUpdate : UUID → PermissionLevel → Except RepoError Unit)
    (repoNewGuest : UUID → UUID → PermissionLevel → Except RepoError UUID)
    (userId documentId guestId creatorId : UUID) (lvl : PermissionLevel) :
    (lvl = .owner →
      svcUpsertPermissionUser repoUpsert userId documentId lvl = .error .invalidInput ∧
      svcUpdatePermissionGuest repoGuestUpdate guestId lvl = .error .invalidInput ∧
      svcCreateGuest repoNewGuest creatorId documentId lvl = .error .invalidInput) ∧
    (lvl ≠ .owner →
      svcUpsertPermissionUser repoUpsert userId documentId lvl =
        wrapExcept (repoUpsert userId documentId lvl) ∧
      svcUpdatePermissionGuest repoGuestUpdate guestId lvl =
        wrapExcept (repoGuestUpdate guestId lvl) ∧
      svcCreateGuest repoNewGuest creatorId documentId lvl =
        wrapExcept (repoNewGuest creatorId documentId lvl)) := by
  constructor
  · intro h
    refine ⟨?_, ?_, ?_⟩ <;>
      simp [svcUpsertPermissionUser, svcUpdatePermissionGuest, svcCreateGuest, h]
  · intro h
    refine ⟨?_, ?_, ?_⟩ <;>
      simp [svcUpsertPermissionUser, svcUpdatePermissionGuest, svcCreateGuest, h]

theorem service_rejects_owner_level_witness :
    svcUpsertPermissionUser (fun _ _ _ => .ok ()) 1 2 .owner = .error .invalidInput ∧
    svcCreateGuest (fun _ _ _ => .ok 9) 3 2 .editor =
      wrapExcept
        ((fun (_ _ : UUID) (_ : PermissionLevel) => (Except.ok 9 : Except RepoError UUID))
          3 2 PermissionLevel.editor) := by
  constructor
  · exact ((service_rejects_owner_level (fun _ _ _ => .ok ()) (fun _ _ => .ok ())
      (fun _ _ _ => .ok 9) 1 2 0 3 .owner).1 rfl).1
  · exact ((service_rejects_owner_level (fun _ _ _ => .ok ()) (fun _ _ => .ok ())
      (fun _ _ _ => .ok 9) 1 2 0 3 .editor).2 (by decide)).2.2

/-- C8: both service listings call the repository with normalized
arguments: an empty permission filter becomes viewer, editor, owner; a
missing cursor becomes a beginning cursor on created_at at `now` with the
all-0xff id; a page size outside 1..100 becomes 10; everything else passes
through unchanged. -/
theorem service_list_defaults {α β : Type}
    (repoDocs : UUID → List PermissionLevel → Cursor → Int → Except RepoError α)
    (repoPerms : UUID → List PermissionLevel → Cursor → Int → Except RepoError β)
    (now : Time) (principalId documentId : UUID)
    (permissions : List PermissionLevel) (cursor : Option Cursor) (pageSize : Int) :
    svcListDocumentsByPrincipal repoDocs now principalId permissions cursor pageSize =
      wrapExcept (repoDocs principalId (svcNormalizePermissions permissions)
        (svcNormalizeCursor now cursor) (svcNormalizePageSize pageSize)) ∧
    svcListPermissionsOnDocument repoPerms now documentId permissions cursor pageSize =
      wrapExcept (repoPerms documentId (svcNormalizePermissions permissions)
        (svcNormalizeCursor now cursor) (svcNormalizePageSize pageSize)) ∧
    (permissions = [] →
      svcNormalizePermissions permissions = [.viewer, .editor, .owner]) ∧
    (permissions ≠ [] → svcNormalizePermissions permissions = permissions) ∧
    (cursor = none → svcNormalizeCursor now cursor =
      { sortField := .createdAt, lastSeenTime := now, lastSeenId := 2 ^ 128 - 1 }) ∧
    (∀ c, cursor = some c → svcNormalizeCursor now cursor = c) ∧
    (pageSize ≤ 0 ∨ pageSize > 100 → svcNormalizePageSize pageSize = 10) ∧
    (0 < pageSize → pageSize ≤ 100 → svcNormalizePageSize pageSize = pageSize) := by
  refine ⟨rfl, rfl, ?_, ?_, ?_, ?_, ?_, ?_⟩
  · intro h
    subst h
    rfl
  · intro h
    have hpos : 0 < permissions.length := List.length_pos.mpr h
    rw [svcNormalizePermissions, if_neg (by omega)]
  · intro h
    subst h
    rfl
  · intro c h
    subst h
    rfl
  · intro h
    rw [svcNormalizePageSize, if_pos (by unfold maxPageSize; omega)]
    rfl
  · intro h1 h2
    rw [svcNormalizePageSize, if_neg (by unfold maxPageSize; omega)]

theorem service_list_defaults_witness :
    svcNormalizePermissions [] = [.viewer, .editor, .owner] ∧
    svcNormalizeCursor 42 none =
      { sortField := .createdAt, lastSeenTime := 42, lastSeenId := 2 ^ 128 - 1 } ∧
    svcNormalizePageSize 0 = 10 ∧ svcNormalizePageSize 101 = 10 ∧
    svcNormalizePageSize 7 = 7 := by
  have h1 := service_list_defaults (fun _ _ _ _ => (.ok () : Except RepoError Unit))
    (fun _ _ _ _ => (.ok () : Except RepoError Unit)) 42 1 2 [] none 0
  have h2 := service_list_defaults (fun _ _ _ _ => (.ok () : Except RepoError Unit))
    (fun _ _ _ _ => (.ok () : Except RepoError Unit)) 42 1 2 [] none 101
  have h3 := service_list_defaults (fun _ _ _ _ => (.ok () : Except RepoError Unit))
    (fun _ _ _ _ => (.ok () : Except RepoError Unit)) 42 1 2 [] none 7
  exact ⟨h1.2.2.1 rfl, h1.2.2.2.2.1 rfl, h1.2.2.2.2.2.2.1 (Or.inl (by decide)),
    h2.2.2.2.2.2.2.1 (Or.inr (by decide)), h3.2.2.2.2.2.2.2 (by decide) (by decide)⟩

/-- C7: `ValidatePassword` answers `(Nil, false, NotFound)` when no user has
that name, `(Nil, false, nil)` when the user exists but the password does
not match, and `(id, true, nil)` on a match. -/
theorem validatePassword_branches (db : UserDB) (userName password : String)
    (verify : String → String → Bool) :
    (sqlGetHashedPassword db userName = none →
      ValidatePassword db userName password verify = (uuidNil, false, some .notFound)) ∧
    (∀ u, sqlGetHashedPassword db userName = some u →
      (verify u.hashedPassword password = false →
        ValidatePassword db userName password verify = (uuidNil, false, none)) ∧
      (verify u.hashedPassword password = true →
        ValidatePassword db userName password verify = (u.id, true, none))) := by
  refine ⟨?_, ?_⟩
  · intro h
    simp [ValidatePassword, h]
  · intro u hu
    refine ⟨?_, ?_⟩ <;> intro hv <;> simp [ValidatePassword, hu, hv]

theorem validatePassword_branches_witness :
    ValidatePassword exUserDB "alice" "old" exVerify = (1, true, none) ∧
    ValidatePassword exUserDB "alice" "bad" exVerify = (uuidNil, false, none) ∧
    ValidatePassword exUserDB "bob" "old" exVerify = (uuidNil, false, some .notFound) := by
  refine ⟨?_, ?_, ?_⟩
  · exact ((validatePassword_branches exUserDB "alice" "old" exVerify).2 exUser
      (by decide)).2 (by decide)
  · exact ((validatePassword_branches exUserDB "alice" "bad" exVerify).2 exUser
      (by decide)).1 (by decide)
  · exact (validatePassword_branches exUserDB "bob" "old" exVerify).1 (by decide)

/-- C5: `ModifyPassword` fails `NotFound` when the user row is missing;
on a hash mismatch it fails `PasswordMismatch` and the rolled-back store is
unchanged; on a match the row's hash is replaced by a hash of the new
password and the change commits. -/
theorem modifyPassword_branches (db : UserDB) (userId : UUID)
    (oldPassword newPassword : String) (verify : String → String → Bool)
    (mkHash : String → String) (now : Time) :
    (sqlGetUserForUpdate db userId = none →
      ModifyPassword db userId oldPassword newPassword verify mkHash now =
        .error (.domain .notFound)) ∧
    (∀ u, sqlGetUserForUpdate db userId = some u →
      (verify u.hashedPassword oldPassword = false →
        ModifyPassword db userId oldPassword newPassword verify mkHash now =
          .error (.domain .passwordMismatch) ∧
        commitUserDB db
          (ModifyPassword db userId oldPassword newPassword verify mkHash now) = db) ∧
      (verify u.hashedPassword oldPassword = true →
        ModifyPassword db userId oldPassword newPassword verify mkHash now =
          .ok (sqlChangeUserPassword db (mkHash newPassword) userId now) ∧
        ∀ v ∈ sqlChangeUserPassword db (mkHash newPassword) userId now,
          v.id = userId → v.hashedPassword = mkHash newPassword)) := by
  refine ⟨?_, ?_⟩
  · intro h
    simp [ModifyPassword, h]
  · intro u hu
    have huid : u.id = userId := by
      have := List.find?_some hu
      exact of_decide_eq_true this
    refine ⟨?_, ?_⟩ <;> intro hv
    · constructor
      · simp [ModifyPassword, hu, hv]
      · simp [ModifyPassword, hu, hv, commitUserDB]
    · constructor
      · simp [ModifyPassword, hu, hv, huid]
      · intro v hvmem hvid
        rcases List.mem_map.mp hvmem with ⟨w, hw, hweq⟩
        by_cases hwid : w.id = userId
        · rw [← hweq]
          simp [hwid]
        · rw [← hweq] at hvid
          simp [hwid] at hvid

theorem modifyPassword_branches_witness :
    ModifyPassword exUserDB 1 "old" "new" exVerify exMkHash 50 =
      .ok (sqlChangeUserPassword exUserDB (exMkHash "new") 1 50) ∧
    ModifyPassword exUserDB 1 "bad" "new" exVerify exMkHash 50 =
      .error (.domain .passwordMismatch) ∧
    ModifyPassword exUserDB 2 "old" "new" exVerify exMkHash 50 =
      .error (.domain .notFound) := by
  refine ⟨?_, ?_, ?_⟩
  · exact (((modifyPassword_branches exUserDB 1 "old" "new" exVerify exMkHash 50).2 exUser
      (by decide)).2 (by decide)).1
  · exact (((modifyPassword_branches exUserDB 1 "bad" "new" exVerify exMkHash 50).2 exUser
      (by decide)).1 (by decide)).1
  · exact (modifyPassword_branches exUserDB 2 "old" "new" exVerify exMkHash 50).1 (by decide)

/-- C6 (code bug): the UPDATE statement behind `UpdateDocument` assigns only
the coalesced name and description and never touches `last_modified_at`;
here an update that renames document 1 succeeds yet leaves the row's
`last_modified_at` at its old value. -/
theorem updateDocument_keeps_lastModifiedAt :
    UpdateDocument exDB 1 (some "renamed") none =
      .ok { exDB with documents := [{ exDocA with name := some "renamed" }, exDocB] } ∧
    ({ exDocA with name := some "renamed" }).lastModifiedAt = exDocA.lastModifiedAt ∧
    ({ exDocA with name := some "renamed" }).name ≠ exDocA.name := by
  refine ⟨rfl, rfl, by decide⟩

/-- C3: `DeleteDocument` is one atomic unit deleting, in order, the
permissions on the document, its guests, and the document row; it fails
`NotFound` exactly when no document row matches, in which case the rollback
leaves the store unchanged, and on success all three deletions commit
together. -/
theorem deleteDocument_atomic_cascade (db : DocDB) (documentId : UUID) :
    (DeleteDocument db documentId = .error (.domain .notFound) ↔
      ∀ d ∈ db.documents, d.id ≠ documentId) ∧
    (DeleteDocument db documentId = .error (.domain .notFound) →
      commitDocDB db (DeleteDocument db documentId) = db) ∧
    (∀ db2, DeleteDocument db documentId = .ok db2 →
      db2.documents = db.documents.filter (fun d => !decide (d.id = documentId)) ∧
      db2.permissions = db.permissions.filter (fun p => !decide (p.documentId = documentId)) ∧
      db2.guests = db.guests.filter (fun g => !decide (g.documentId = documentId)) ∧
      commitDocDB db (DeleteDocument db documentId) = db2) := by
  have hred : DeleteDocument db documentId =
      if (db.documents.filter (fun d => decide (d.id = documentId))).length < 1 then
        .error (.domain .notFound)
      else
        .ok { documents := db.documents.filter (fun d => !decide (d.id = documentId)),
              permissions := db.permissions.filter (fun p => !decide (p.documentId = documentId)),
              guests := db.guests.filter (fun g => !decide (g.documentId = documentId)) } := rfl
  rw [hred]
  by_cases hc : (db.documents.filter (fun d => decide (d.id = documentId))).length < 1
  · rw [if_pos hc]
    have hnil : db.documents.filter (fun d => decide (d.id = documentId)) = [] :=
      List.length_eq_zero.mp (by omega)
    refine ⟨?_, ?_, ?_⟩
    · constructor
      · intro _ d hd
        have hd2 := List.filter_eq_nil_iff.mp hnil d hd
        simpa using hd2
      · intro _
        rfl
    · intro _
      rfl
    · intro db2 h
      exact absurd h (by simp)
  · rw [if_neg hc]
    refine ⟨?_, ?_, ?_⟩
    · apply iff_of_false
      · simp
      · intro hall
        have hne : db.documents.filter (fun d => decide (d.id = documentId)) ≠ [] := by
          intro he
          rw [he] at hc
          simp at hc
        rcases List.exists_mem_of_ne_nil _ hne with ⟨x, hx⟩
        have hx2 := List.mem_filter.mp hx
        exact absurd (of_decide_eq_true hx2.2) (hall x hx2.1)
    · intro h
      exact absurd h (by simp)
    · intro db2 h
      injection h with h2
      subst h2
      exact ⟨rfl, rfl, rfl, rfl⟩

theorem deleteDocument_atomic_cascade_witness :
    DeleteDocument exDB 3 = .error (.domain .notFound) ∧
    ({ documents := [exDocB], permissions := [exPermB], guests := [] } : DocDB).documents =
      exDB.documents.filter (fun d => !decide (d.id = 1)) := by
  constructor
  · exact (deleteDocument_atomic_cascade exDB 3).1.mpr (by decide)
  · exact ((deleteDocument_atomic_cascade exDB 1).2.2
      { documents := [exDocB], permissions := [exPermB], guests := [] } rfl).1

/-- C9 (counterexample): the repository-level `UpsertPermissionUser` does
not reject the owner level: on a store whose document 1 exists, the call
with level owner succeeds and the resulting store contains a permission row
at level owner. -/
theorem upsertPermissionUser_owner_accepted :
    UpsertPermissionUser exDB 7 1 .owner 50 =
      .ok (sqlUpsertPermissionUser exDB 7 1 .owner 7 50) ∧
    ∃ p ∈ (sqlUpsertPermissionUser exDB 7 1 .owner 7 50).permissions,
      p.recipientId = 7 ∧ p.documentId = 1 ∧ p.permissionLevel = RepoPermissionLevel.owner := by
  constructor
  · rfl
  · decide

/-- C9 (amended): the repository's `UpsertPermissionUser` performs no
owner-level check: whenever the document exists it succeeds for level owner
and upserts the row at that level; the rejection of owner exists only in
the service layer, which answers `InvalidInput` without calling the
repository. -/
theorem upsertPermissionUser_owner_upserts (db : DocDB) (userId documentId : UUID)
    (now : Time)
    (repo : UUID → UUID → PermissionLevel → Except RepoError Unit)
    (h : (sqlGetDocument db documentId).isSome = true) :
    UpsertPermissionUser db userId documentId .owner now =
      .ok (sqlUpsertPermissionUser db userId documentId .owner userId now) ∧
    (∃ p ∈ (sqlUpsertPermissionUser db userId documentId .owner userId now).permissions,
      p.recipientId = userId ∧ p.documentId = documentId ∧
      p.permissionLevel = RepoPermissionLevel.owner) ∧
    svcUpsertPermissionUser repo userId documentId .owner = .error .invalidInput := by
  refine ⟨?_, ?_, rfl⟩
  · unfold UpsertPermissionUser
    cases hg : sqlGetDocument db documentId with
    | none => rw [hg] at h; exact absurd h (by simp)
    | some d => rfl
  · exact sqlUpsertPermissionUser_mem db userId documentId .owner userId now

theorem upsertPermissionUser_owner_upserts_witness :
    UpsertPermissionUser exDB 7 1 .owner 50 =
      .ok (sqlUpsertPermissionUser exDB 7 1 .owner 7 50) ∧
    svcUpsertPermissionUser (fun _ _ _ => .ok ()) 7 1 .owner = .error .invalidInput := by
  have h := upsertPermissionUser_owner_upserts exDB 7 1 50 (fun _ _ _ => .ok ()) (by decide)
  exact ⟨h.1, h.2.2⟩

/-- C10: every permission returned by `GetPermissionOfPrincipalOnDocument`
and `ListPermissionsOnDocument` carries the stored row's `created_at` in
its `LastModifiedAt` field (not the stored `last_modified_at`), so the
returned `LastModifiedAt` always equals the returned `CreatedAt`. -/
theorem returned_permission_lastModifiedAt_eq_createdAt (db : DocDB)
    (documentId principalId : UUID) (permissionFilter : List PermissionLevel)
    (cursor : Option Cursor) (pageSize : Nat) :
    (∀ perm, GetPermissionOfPrincipalOnDocument db documentId principalId = .ok perm →
      ∃ row ∈ db.permissions, row.documentId = documentId ∧
        row.recipientId = principalId ∧ perm = repoToServicePermission row ∧
        perm.lastModifiedAt = row.createdAt ∧ perm.createdAt = row.createdAt) ∧
    (∀ perms c2,
      ListPermissionsOnDocument db documentId permissionFilter cursor pageSize =
        .ok (perms, c2) →
      ∀ perm ∈ perms, ∃ row ∈ db.permissions,
        perm = repoToServicePermission row ∧ perm.lastModifiedAt = row.createdAt ∧
        perm.createdAt = row.createdAt) := by
  constructor
  · intro perm h
    unfold GetPermissionOfPrincipalOnDocument at h
    cases hf : db.permissions.find?
        (fun p => decide (p.documentId = documentId ∧ p.recipientId = principalId)) with
    | none =>
      rw [hf] at h
      exact absurd h (by simp)
    | some row =>
      rw [hf] at h
      have hrow := List.mem_of_find?_eq_some hf
      have hcond := List.find?_some hf
      simp only [decide_eq_true_eq] at hcond
      have hperm : perm = repoToServicePermission row := by
        injection h with h2
        exact h2.symm
      exact ⟨row, hrow, hcond.1, hcond.2, hperm, by rw [hperm]; rfl, by rw [hperm]; rfl⟩
  · intro perms c2 h perm hperm
    unfold ListPermissionsOnDocument at h
    by_cases hlen : permissionFilter.length < 1
    · rw [if_pos hlen] at h
      exact absurd h (by simp)
    · rw [if_neg hlen] at h
      cases cursor with
      | none => exact absurd h (by simp)
      | some c =>
        cases hg : sqlGetDocument db documentId with
        | none =>
          rw [hg] at h
          exact absurd h (by simp)
        | some drow =>
          rw [hg] at h
          injection h with h2
          have hperms : perms = (readPermissions db documentId
              (permissionFilter.map serviceToRepoPermissionLevel) c pageSize).map
                repoToServicePermission :=
            (congrArg Prod.fst h2).symm
          rw [hperms] at hperm
          rcases List.mem_map.mp hperm with ⟨row, hrowmem, hroweq⟩
          exact ⟨row, mem_permissions_of_mem_readPermissions hrowmem, hroweq.symm,
            by rw [← hroweq]; rfl, by rw [← hroweq]; rfl⟩

theorem returned_permission_lastModifiedAt_eq_createdAt_witness :
    ∃ row ∈ exDB.permissions, row.documentId = 2 ∧ row.recipientId = 4 ∧
      repoToServicePermission exPermB = repoToServicePermission row ∧
      (repoToServicePermission exPermB).lastModifiedAt = row.createdAt ∧
      (repoToServicePermission exPermB).createdAt = row.createdAt :=
  (returned_permission_lastModifiedAt_eq_createdAt exDB 2 4 [.viewer]
    (some ⟨.createdAt, 100, 500⟩) 10).1 (repoToServicePermission exPermB) rfl

/-! ## Uniqueness of sort keys among qualifying rows -/

theorem length_filter_le_one {l : List α} {f : α → β} (hf : (l.map f).Nodup)
    (p : α → Bool) (b : β) (hpb : ∀ x, p x = true → f x = b) :
    (l.filter p).length ≤ 1 := by
  induction l with
  | nil => simp
  | cons a t ih =>
    rw [List.map_cons, List.nodup_cons] at hf
    by_cases hpa : p a = true
    · have hnil : t.filter p = [] := by
        rw [List.filter_eq_nil_iff]
        intro x hx hpx
        exact hf.1 (by rw [hpb a hpa, ← hpb x hpx]; exact List.mem_map_of_mem f hx)
      rw [List.filter_cons_of_pos hpa, hnil]
      simp
    · rw [List.filter_cons_of_neg (by simpa using hpa)]
      exact ih hf.2

theorem nodup_of_length_le_one {l : List α} (h : l.length ≤ 1) : l.Nodup := by
  match l with
  | [] => simp
  | [a] => simp
  | a :: b :: t => simp at h

/-- In the recipient-filtered documents ⋈ permissions join, document ids are
pairwise distinct: document ids are unique and at most one permission row
exists per (recipient, document) pair. -/
theorem nodup_ids_filter_join (docs : List DocRow) (perms : List PermRow)
    (hdocs : (docs.map DocRow.id).Nodup)
    (hperm : (perms.map (fun p => (p.recipientId, p.documentId))).Nodup)
    (q : DocRow × PermRow → Bool) (rid : UUID)
    (hq : ∀ r, q r = true → r.2.recipientId = rid) :
    (((docs.flatMap (fun d =>
        (perms.filter (fun p => decide (p.documentId = d.id))).map
          (fun p => (d, p)))).filter q).map (fun r => r.1.id)).Nodup := by
  induction docs with
  | nil => simp
  | cons d ds ih =>
    rw [List.flatMap_cons, List.filter_append, List.map_append, List.nodup_append]
    rw [List.map_cons, List.nodup_cons] at hdocs
    refine ⟨?_, ih hdocs.2, ?_⟩
    · apply nodup_of_length_le_one
      rw [List.filter_map, List.length_map, List.length_map, List.filter_filter]
      apply length_filter_le_one hperm _ (rid, d.id)
      intro x hx
      simp only [Function.comp, Bool.and_eq_true, decide_eq_true_eq] at hx
      have h1 : x.recipientId = rid := hq (d, x) hx.1
      have h2 : x.documentId = d.id := hx.2
      rw [h1, h2]
    · intro a ha
      have had : a = d.id := by
        rcases List.mem_map.mp ha with ⟨r, hr, hrid⟩
        have hr2 := List.mem_of_mem_filter hr
        rcases List.mem_map.mp hr2 with ⟨p0, _, hp0⟩
        rw [← hrid, ← hp0]
      intro hb
      rcases List.mem_map.mp hb with ⟨r, hr, hrid⟩
      have hr2 := List.mem_of_mem_filter hr
      rcases List.mem_flatMap.mp hr2 with ⟨d2, hd2, hrd2⟩
      rcases List.mem_map.mp hrd2 with ⟨p0, _, hp0⟩
      apply hdocs.1
      have hdd : d.id = d2.id := by rw [← had, ← hrid, ← hp0]
      rw [hdd]
      exact List.mem_map_of_mem DocRow.id hd2

/-- Key uniqueness for the documents keyset scans. -/
theorem nodup_docKey (db : DocDB)
    (hdoc : (db.documents.map DocRow.id).Nodup)
    (hperm : (db.permissions.map (fun p => (p.recipientId, p.documentId))).Nodup)
    (q : DocRow × PermRow → Bool) (rid : UUID) (tf : DocRow → Nat)
    (hq : ∀ r, q r = true → r.2.recipientId = rid) :
    (((joinDocPerm db).filter q).map (fun r => (tf r.1, r.1.id))).Nodup := by
  apply List.Nodup.of_map Prod.snd
  rw [List.map_map]
  have heq : (Prod.snd ∘ fun r : DocRow × PermRow => (tf r.1, r.1.id)) =
      fun r : DocRow × PermRow => r.1.id := rfl
  rw [heq]
  exact nodup_ids_filter_join db.documents db.permissions hdoc hperm q rid hq

/-- Key uniqueness for the permissions keyset scans. -/
theorem nodup_permKey (perms : List PermRow)
    (hperm : (perms.map (fun p => (p.recipientId, p.documentId))).Nodup)
    (q : PermRow → Bool) (did : UUID) (tf : PermRow → Nat)
    (hq : ∀ p, q p = true → p.documentId = did) :
    ((perms.filter q).map (fun p => (tf p, p.recipientId))).Nodup := by
  apply List.Nodup.of_map Prod.snd
  rw [List.map_map]
  have heq : (Prod.snd ∘ fun p : PermRow => (tf p, p.recipientId)) =
      fun p : PermRow => p.recipientId := rfl
  rw [heq]
  have h1 : perms.Pairwise (fun p1 p2 =>
      (p1.recipientId, p1.documentId) ≠ (p2.recipientId, p2.documentId)) :=
    List.pairwise_map.mp hperm
  have h2 : (List.map (fun p => p.recipientId) (perms.filter q)).Pairwise (· ≠ ·) := by
    rw [List.pairwise_map]
    refine (h1.filter q).imp_of_mem ?_
    intro a b ha hb hne heq2
    apply hne
    have hda : a.documentId = did := hq a (List.of_mem_filter ha)
    have hdb : b.documentId = did := hq b (List.of_mem_filter hb)
    rw [heq2, hda, hdb]
  exact h2

/-- Membership characterisation shared by the two documents keyset scans
(`tf` is the sort field). -/
theorem mem_docScan_aux (db : DocDB) (rid : UUID) (lastT lastId : Nat) (n : Nat)
    (filt : List RepoPermissionLevel) (tf : DocRow → Nat)
    (hdoc : (db.documents.map DocRow.id).Nodup)
    (hperm : (db.permissions.map (fun p => (p.recipientId, p.documentId))).Nodup)
    (r : DocRow × PermRow) :
    r ∈ pageScan (fun r : DocRow × PermRow => (tf r.1, r.1.id))
        (fun r => decide (keyLt (tf r.1, r.1.id) (lastT, lastId)) &&
          decide (r.2.permissionLevel ∈ filt) && decide (r.2.recipientId = rid))
        n (joinDocPerm db) ↔
      r ∈ joinDocPerm db ∧
      (keyLt (tf r.1, r.1.id) (lastT, lastId) ∧
        r.2.permissionLevel ∈ filt ∧ r.2.recipientId = rid) ∧
      (joinDocPerm db).countP (fun y =>
        (decide (keyLt (tf y.1, y.1.id) (lastT, lastId)) &&
          decide (y.2.permissionLevel ∈ filt) && decide (y.2.recipientId = rid)) &&
        decide (keyLt (tf r.1, r.1.id) (tf y.1, y.1.id))) < n := by
  have hq : ∀ x : DocRow × PermRow,
      (decide (keyLt (tf x.1, x.1.id) (lastT, lastId)) &&
        decide (x.2.permissionLevel ∈ filt) && decide (x.2.recipientId = rid)) = true →
      x.2.recipientId = rid := by
    intro x hx
    simp only [Bool.and_eq_true, decide_eq_true_eq] at hx
    exact hx.2
  rw [mem_pageScan (nodup_docKey db hdoc hperm _ rid tf hq)]
  simp only [Bool.and_eq_true, decide_eq_true_eq, and_assoc]

/-- Membership characterisation shared by the two permissions keyset scans
(`tf` is the sort field). -/
theorem mem_permScan_aux (db : DocDB) (did : UUID) (lastT lastId : Nat) (n : Nat)
    (filt : List RepoPermissionLevel) (tf : PermRow → Nat)
    (hperm : (db.permissions.map (fun p => (p.recipientId, p.documentId))).Nodup)
    (p : PermRow) :
    p ∈ pageScan (fun p : PermRow => (tf p, p.recipientId))
        (fun p => decide (p.documentId = did) &&
          decide (keyLt (tf p, p.recipientId) (lastT, lastId)) &&
          decide (p.permissionLevel ∈ filt))
        n db.permissions ↔
      p ∈ db.permissions ∧
      (p.documentId = did ∧ keyLt (tf p, p.recipientId) (lastT, lastId) ∧
        p.permissionLevel ∈ filt) ∧
      db.permissions.countP (fun y =>
        (decide (y.documentId = did) &&
          decide (keyLt (tf y, y.recipientId) (lastT, lastId)) &&
          decide (y.permissionLevel ∈ filt)) &&
        decide (keyLt (tf p, p.recipientId) (tf y, y.recipientId))) < n := by
  have hq : ∀ x : PermRow,
      (decide (x.documentId = did) &&
        decide (keyLt (tf x, x.recipientId) (lastT, lastId)) &&
        decide (x.permissionLevel ∈ filt)) = true →
      x.documentId = did := by
    intro x hx
    simp only [Bool.and_eq_true, decide_eq_true_eq] at hx
    exact hx.1.1
  rw [mem_pageScan (nodup_permKey db.permissions hperm _ did tf hq)]
  simp only [Bool.and_eq_true, decide_eq_true_eq, and_assoc]

/-- C1: a stored row is in a keyset page iff it satisfies the scan's WHERE
clause — the keyset condition `t < last_seen_time OR (t = last_seen_time
AND id < last_seen_id)` on the cursor's sort field, together with the
recipient (resp. document) and permission-filter conditions — and fewer
than `n` qualifying rows precede it in the (sort field DESC, id DESC)
order; stated for the documents-by-principal scan and for the
permissions-on-document scan, under the store's primary-key invariants
(unique document ids, at most one permission row per (recipient,
document)). -/
theorem readScan_keyset_membership (db : DocDB) (rid did : UUID)
    (filt : List RepoPermissionLevel) (c : Cursor) (n : Nat)
    (hdoc : (db.documents.map DocRow.id).Nodup)
    (hperm : (db.permissions.map (fun p => (p.recipientId, p.documentId))).Nodup) :
    (∀ r : DocRow × PermRow,
      r ∈ readDocuments db rid filt c n ↔
        r ∈ joinDocPerm db ∧
        (keyLt (docTime c.sortField r.1, r.1.id) (c.lastSeenTime, c.lastSeenId) ∧
          r.2.permissionLevel ∈ filt ∧ r.2.recipientId = rid) ∧
        (joinDocPerm db).countP (fun y =>
          (decide (keyLt (docTime c.sortField y.1, y.1.id)
              (c.lastSeenTime, c.lastSeenId)) &&
            decide (y.2.permissionLevel ∈ filt) && decide (y.2.recipientId = rid)) &&
          decide (keyLt (docTime c.sortField r.1, r.1.id)
            (docTime c.sortField y.1, y.1.id))) < n) ∧
    (∀ p : PermRow,
      p ∈ readPermissions db did filt c n ↔
        p ∈ db.permissions ∧
        (p.documentId = did ∧
          keyLt (permTime c.sortField p, p.recipientId)
            (c.lastSeenTime, c.lastSeenId) ∧
          p.permissionLevel ∈ filt) ∧
        db.permissions.countP (fun y =>
          (decide (y.documentId = did) &&
            decide (keyLt (permTime c.sortField y, y.recipientId)
              (c.lastSeenTime, c.lastSeenId)) &&
            decide (y.permissionLevel ∈ filt)) &&
          decide (keyLt (permTime c.sortField p, p.recipientId)
            (permTime c.sortField y, y.recipientId))) < n) := by
  rcases c with ⟨sf, lastT, lastId⟩
  cases sf with
  | createdAt =>
    constructor
    · intro r
      simp only [readDocuments, sqlListDocumentsByCreatedAt, docTime]
      exact mem_docScan_aux db rid lastT lastId n filt DocRow.createdAt hdoc hperm r
    · intro p
      simp only [readPermissions, sqlListPermissionOnDocumentCreatedAt, permTime]
      exact mem_permScan_aux db did lastT lastId n filt PermRow.createdAt hperm p
  | lastModifiedAt =>
    constructor
    · intro r
      simp only [readDocuments, sqlListDocumentsByLastModifiedAt, docTime]
      exact mem_docScan_aux db rid lastT lastId n filt DocRow.lastModifiedAt hdoc hperm r
    · intro p
      simp only [readPermissions, sqlListPermissionOnDocumentLastModifiedAt, permTime]
      exact mem_permScan_aux db did lastT lastId n filt PermRow.lastModifiedAt hperm p

theorem readScan_keyset_membership_witness :
    (exDocB, exPermB) ∈ readDocuments exDB 4 [.viewer, .editor]
      ⟨.createdAt, 100, 500⟩ 1 ∧
    exPermA ∈ readPermissions exDB 1 [.viewer, .editor]
      ⟨.createdAt, 100, 500⟩ 1 := by
  have h := readScan_keyset_membership exDB 4 1 [.viewer, .editor]
    ⟨.createdAt, 100, 500⟩ 1 (by decide) (by decide)
  exact ⟨(h.1 (exDocB, exPermB)).mpr (by decide), (h.2 exPermA).mpr (by decide)⟩

/-- C2: for both listings, a successful call with a non-empty page returns
a cursor whose last_seen_id is the last returned row's id and whose
last_seen_time is that row's value of the cursor's sort field (created_at
when sorting by created_at, last_modified_at when sorting by
last_modified_at); an empty page echoes the request cursor. -/
theorem list_response_cursor_from_last_row (db : DocDB)
    (principalId documentId : UUID) (permissions : List PermissionLevel)
    (c : Cursor) (pageSize : Nat) :
    (∀ dps c2,
      ListDocumentsByPrincipal db principalId permissions (some c) pageSize =
        .ok (dps, c2) →
      (∀ lastDp, dps.getLast? = some lastDp →
        c2.sortField = c.sortField ∧ c2.lastSeenId = lastDp.document.id ∧
        c2.lastSeenTime = (match c.sortField with
          | .createdAt => lastDp.document.createdAt
          | .lastModifiedAt => lastDp.document.lastModifiedAt)) ∧
      (dps = [] → c2 = c)) ∧
    (∀ ps c2,
      ListPermissionsOnDocument db documentId permissions (some c) pageSize =
        .ok (ps, c2) →
      (∀ lastP, ps.getLast? = some lastP →
        c2.sortField = c.sortField ∧ c2.lastSeenId = lastP.recipientId ∧
        c2.lastSeenTime = (match c.sortField with
          | .createdAt => lastP.createdAt
          | .lastModifiedAt => lastP.lastModifiedAt)) ∧
      (ps = [] → c2 = c)) := by
  constructor
  · intro dps c2 h
    simp only [ListDocumentsByPrincipal] at h
    by_cases hlen : permissions.length < 1
    · rw [if_pos hlen] at h
      exact absurd h (by simp)
    · rw [if_neg hlen] at h
      injection h with h2
      have hdps : dps = (readDocuments db principalId
          (permissions.map serviceToRepoPermissionLevel) c pageSize).map
            parseDocumentPermission := (congrArg Prod.fst h2).symm
      have hc2 : c2 = respCursorFromDocs c dps := by
        have hx := (congrArg Prod.snd h2).symm
        rw [← hdps] at hx
        exact hx
      constructor
      · intro lastDp hlast
        rw [hc2]
        unfold respCursorFromDocs
        rw [hlast]
        exact ⟨rfl, rfl, rfl⟩
      · intro hnil
        subst hnil
        rw [hc2]
        rcases c with ⟨sf, t, i⟩
        rfl
  · intro ps c2 h
    simp only [ListPermissionsOnDocument] at h
    by_cases hlen : permissions.length < 1
    · rw [if_pos hlen] at h
      exact absurd h (by simp)
    · rw [if_neg hlen] at h
      cases hg : sqlGetDocument db documentId with
      | none =>
        rw [hg] at h
        exact absurd h (by simp)
      | some drow =>
        rw [hg] at h
        injection h with h2
        have hps : ps = (readPermissions db documentId
            (permissions.map serviceToRepoPermissionLevel) c pageSize).map
              repoToServicePermission := (congrArg Prod.fst h2).symm
        have hc2 : c2 = respCursorFromPerms c ps := by
          have hx := (congrArg Prod.snd h2).symm
          rw [← hps] at hx
          exact hx
        constructor
        · intro lastP hlast
          rw [hc2]
          unfold respCursorFromPerms
          rw [hlast]
          exact ⟨rfl, rfl, rfl⟩
        · intro hnil
          subst hnil
          rw [hc2]
          rcases c with ⟨sf, t, i⟩
          rfl

theorem list_response_cursor_from_last_row_witness :
    (Cursor.mk .createdAt 5 1).sortField = SortField.createdAt ∧
    (Cursor.mk .createdAt 5 1).lastSeenId =
      (parseDocumentPermission (exDocA, exPermA)).document.id ∧
    (Cursor.mk .createdAt 5 1).lastSeenTime =
      (parseDocumentPermission (exDocA, exPermA)).document.createdAt :=
  ((list_response_cursor_from_last_row exDB 4 2 [.editor, .viewer]
      ⟨.createdAt, 100, 500⟩ 10).1
    [parseDocumentPermission (exDocB, exPermB), parseDocumentPermission (exDocA, exPermA)]
    ⟨.createdAt, 5, 1⟩ (by decide)).1 (parseDocumentPermission (exDocA, exPermA)) (by decide)
